import Mathlib

/-!
Verification of the `Buffer` class of `src/alephvault/binary/buffers.py`
(AlephVault/python-binary), a byte-backed storage addressable at bit
granularity.  The Python class is embedded shallowly: the object state is a
`Buffer` structure, every mutating method is a pure function from the state
to a `BufResult`, carrying the state at the point of return — also on the
error path, since a Python exception leaves the partially mutated object
alive.  Python `int` inputs that the code range-checks are `Int`; bytes
inside the `bytearray` are `Nat` (always `< 256`, enforced by
`bytearray_set`, mirroring CPython's check on item assignment).  Shifts,
masks and `or` use `Nat` bitwise operators exactly as the Python source
does, including the source's operator precedence: Python parses
`a >> b + c` as `a >> (b + c)` and `a + b << c` as `(a + b) << c`, and the
embedding reproduces that.
-/

namespace PyBinary

/-- Errors raised by the Python code: `ValueError`, `UnsupportedError`,
and `IndexError` (the latter raised by `bytearray` item assignment on an
out-of-range index). -/
inductive BufError where
  | valueError
  | unsupported
  | indexError
deriving DecidableEq, Repr

/-- Observable state of a `Buffer` object: the backing `bytearray`
(`_target`), the `_resizable` flag, the bit cursor `bit_position` and the
stored `_bit_length`. -/
structure Buffer where
  target : List Nat
  resizable : Bool
  bit_position : Nat
  bit_length : Nat
deriving DecidableEq, Repr

/-- Result of running one method: the returned value and the object state
on normal return, or the raised error and the object state at the moment
of the raise (Python exceptions do not roll back prior field writes). -/
inductive BufResult (α : Type) where
  | ok : α → Buffer → BufResult α
  | err : BufError → Buffer → BufResult α
deriving DecidableEq, Repr

/-- The object state carried by a result, on either path. -/
def BufResult.state {α : Type} : BufResult α → Buffer
  | .ok _ s => s
  | .err _ s => s

/-- Whether the call returned normally. -/
def BufResult.isOk {α : Type} : BufResult α → Bool
  | .ok _ _ => true
  | .err _ _ => false

/-- Sequencing of method calls on the same object: an error stops the
chain, keeping the state at the raise. -/
def BufResult.bind {α β : Type} : BufResult α → (α → Buffer → BufResult β) → BufResult β
  | .ok a s, f => f a s
  | .err e s, _ => .err e s

/-- CPython `bytearray` item assignment `arr[i] = v`: raises `IndexError`
when the index is out of range, `ValueError` when the value is not in
`range(0, 256)`; otherwise stores the byte. -/
def bytearray_set (arr : List Nat) (i : Nat) (v : Nat) : Except BufError (List Nat) :=
  if arr.length ≤ i then .error .indexError
  else if 256 ≤ v then .error .valueError
  else .ok (arr.set i v)

/-- Constructor branch `target is None`: a fresh resizable buffer of
`max(_INITIAL_CAPACITY, initial_capacity)` zero bytes
(`_INITIAL_CAPACITY = 16`), cursor and length zero. -/
def Buffer.mk_new (initial_capacity : Nat) : Buffer :=
  { target := List.replicate (max 16 initial_capacity) 0
    resizable := true
    bit_position := 0
    bit_length := 0 }

/-- Constructor branch with a `target` bytearray: rejects a zero-length
target with `ValueError`, otherwise wraps it as a non-resizable buffer
with `_bit_length = len(target) << 3`. -/
def Buffer.wrap (t : List Nat) : Except BufError Buffer :=
  if t.length = 0 then .error .valueError
  else .ok { target := t, resizable := false, bit_position := 0, bit_length := t.length <<< 3 }

/-- Property `capacity`: `len(self._target)`. -/
def Buffer.capacity (b : Buffer) : Nat :=
  b.target.length

/-- Property `length`: the source line is
`self._bit_length >> 3 + (1 if self._bit_length & 7 else 0)`, which under
Python precedence is `bit_length >> (3 + (1 if bit_length & 7 else 0))`. -/
def Buffer.length (b : Buffer) : Nat :=
  b.bit_length >>> (3 + (if b.bit_length &&& 7 ≠ 0 then 1 else 0))

/-- Property `position`: `bit_position >> 3`. -/
def Buffer.position (b : Buffer) : Nat :=
  b.bit_position >>> 3

/-- Property setter `position`: `self.bit_position = value << 3`, with no
bounds validation. -/
def Buffer.set_position (b : Buffer) (value : Nat) : Buffer :=
  { b with bit_position := value <<< 3 }

/-- Direct assignment to the public `bit_position` attribute, with no
bounds validation. -/
def Buffer.set_bit_position (b : Buffer) (value : Nat) : Buffer :=
  { b with bit_position := value }

/-- Property `bit_aligned`: `self.bit_position & 7 == 0`. -/
def Buffer.bit_aligned (b : Buffer) : Bool :=
  b.bit_position &&& 7 == 0

/-- Method `_set_capacity`: refuses on a non-resizable buffer, else
allocates `bytearray(value)`, copies `min(value, capacity)` leading bytes,
clamps `bit_position` to `value << 3` when shrinking, and installs the new
array. -/
def Buffer.«_set_capacity» (b : Buffer) (value : Nat) : BufResult Unit :=
  if b.resizable = false then .err .unsupported b
  else
    let len_ := min value b.capacity
    let new_array := b.target.take len_ ++ List.replicate (value - len_) 0
    let b1 := if value < b.capacity then { b with bit_position := value <<< 3 } else b
    .ok () { b1 with target := new_array }

/-- Method `_grow`: `value = delta + capacity`; new capacity is
`max(value, (1 << 31) - 1)` when `capacity >= 1 << 30`, else
`max(max(value, 256), capacity * 2)`; then `_set_capacity`. -/
def Buffer.«_grow» (b : Buffer) (delta : Nat) : BufResult Unit :=
  let value := delta + b.capacity
  let new_capacity :=
    if b.capacity ≥ 1 <<< 30 then max value (1 <<< 31 - 1)
    else max (max value 256) (b.capacity * 2)
  b.«_set_capacity» new_capacity

/-- Property setter `capacity`: `ValueError` when the new value is below
the current `length`, else `_set_capacity`. -/
def Buffer.set_capacity (b : Buffer) (value : Nat) : BufResult Unit :=
  if value < b.length then .err .valueError b
  else b.«_set_capacity» value

/-- Property setter `length`: negative values raise `ValueError`; a value
above the capacity first grows by the difference; then
`_bit_length = value << 3` and `bit_position = min(value << 3, bit_position)`. -/
def Buffer.set_length (b : Buffer) (value : Int) : BufResult Unit :=
  if value < 0 then .err .valueError b
  else
    let v := value.toNat
    match (if b.capacity < v then b.«_grow» (v - b.capacity) else .ok () b) with
    | .err e s => .err e s
    | .ok _ b1 =>
        .ok () { b1 with bit_length := v <<< 3, bit_position := min (v <<< 3) b1.bit_position }

/-- Method `seek(offset, whence)` with `whence` one of `SEEK_SET = 0`,
`SEEK_CUR = 1`, `SEEK_END = 2`.  The clamp is
`max(0, min(capacity << 3, v))`.  `SEEK_SET` uses `offset << 3`;
`SEEK_CUR` uses the source line `self.bit_position + offset << 3`, which
under Python precedence is `(bit_position + offset) << 3`; `SEEK_END`
uses `(capacity - offset) << 3`.  Any other `whence` raises `ValueError`. -/
def Buffer.seek (b : Buffer) (offset : Int) (whence : Nat) : BufResult Unit :=
  let clamp : Int → Nat := fun v => (max (0 : Int) (min ((b.capacity <<< 3 : Nat) : Int) v)).toNat
  if whence = 0 then .ok () { b with bit_position := clamp (offset * 8) }
  else if whence = 1 then .ok () { b with bit_position := clamp (((b.bit_position : Int) + offset) * 8) }
  else if whence = 2 then .ok () { b with bit_position := clamp (((b.capacity : Int) - offset) * 8) }
  else .err .valueError b

/-- Method `_update_length`: raise `_bit_length` to `bit_position` when
the cursor moved past it. -/
def Buffer.«_update_length» (b : Buffer) : Buffer :=
  if b.bit_length < b.bit_position then { b with bit_length := b.bit_position } else b

/-- Method `_has_data_to_read`: `position < length`. -/
def Buffer.«_has_data_to_read» (b : Buffer) : Bool :=
  b.position < b.length

/-- Method `read_bit`: `None` at end of data; otherwise fetches the byte
at `position`, increments `bit_position`, and tests the bit selected by
the INCREMENTED cursor: `b & (1 << (self.bit_position & 7)) != 0`. -/
def Buffer.read_bit (b : Buffer) : Option Bool × Buffer :=
  if b.bit_length ≤ b.bit_position then (none, b)
  else
    let byte := b.target.getD b.position 0
    let bp := b.bit_position + 1
    (some (byte &&& (1 <<< (bp &&& 7)) != 0), { b with bit_position := bp })

/-- Method `_read_byte_misaligned`: with `r = bit_position & 7`, reads
`target[position] >> r`, advances the cursor by 8, then ors in the WHOLE
next byte shifted left: `target[bit_position >> 3] << (8 - r)` (no mask,
so the result may exceed 255). -/
def Buffer.«_read_byte_misaligned» (b : Buffer) : Nat × Buffer :=
  let r := b.bit_position &&& 7
  let l := b.target.getD b.position 0 >>> r
  let bp := b.bit_position + 8
  let u := b.target.getD (bp >>> 3) 0 <<< (8 - r)
  (l ||| u, { b with bit_position := bp })

/-- Method `_read_byte_aligned`: returns `target[position]` and advances
the byte position by one. -/
def Buffer.«_read_byte_aligned» (b : Buffer) : Nat × Buffer :=
  (b.target.getD b.position 0, { b with bit_position := (b.position + 1) <<< 3 })

/-- Method `_read_byte`: dispatch on alignment. -/
def Buffer.«_read_byte» (b : Buffer) : Nat × Buffer :=
  if b.bit_aligned then b.«_read_byte_aligned» else b.«_read_byte_misaligned»

/-- Method `read_byte`: `-1` when `_has_data_to_read` is false, else
`_read_byte`. -/
def Buffer.read_byte (b : Buffer) : Int × Buffer :=
  if b.«_has_data_to_read» then
    let p := b.«_read_byte»
    ((p.1 : Int), p.2)
  else (-1, b)

/-- Method `_write_misaligned`: with `r = bit_position & 7`, `rc = 8 - r`,
`p = position`, performs the two bytearray item assignments of the source
in order — `target[p+1] = (target[p+1] & (255 << r)) | (value >> rc)` and
then `target[p] = (target[p] & (255 >> rc)) | (value << r)` (the second
value is NOT masked to 8 bits, so CPython raises `ValueError` when
`value << r` has bits at or above 256, after the first assignment has
already landed) — then advances the cursor by 8. -/
def Buffer.«_write_misaligned» (b : Buffer) (value : Nat) : BufResult Unit :=
  let r := b.bit_position &&& 7
  let rc := 8 - r
  let p := b.position
  match bytearray_set b.target (p + 1) ((b.target.getD (p + 1) 0 &&& (255 <<< r)) ||| (value >>> rc)) with
  | .error e => .err e b
  | .ok t1 =>
    match bytearray_set t1 p ((t1.getD p 0 &&& (255 >>> rc)) ||| (value <<< r)) with
    | .error e => .err e { b with target := t1 }
    | .ok t2 => .ok () { b with target := t2, bit_position := b.bit_position + 8 }

/-- Method `write_byte`: rejects values outside `[0, 255]` with
`ValueError`; aligned path grows when `position + 1 >= capacity`, stores
at `position` and advances one byte; misaligned path grows when
`position + 2 >= capacity` and calls `_write_misaligned`; finally
`_update_length`. -/
def Buffer.write_byte (b : Buffer) (value : Int) : BufResult Unit :=
  if value < 0 ∨ 255 < value then .err .valueError b
  else
    let v := value.toNat
    if b.bit_aligned then
      match (if b.capacity ≤ b.position + 1 then b.«_grow» 1 else .ok () b) with
      | .err e s => .err e s
      | .ok _ b1 =>
        match bytearray_set b1.target b1.position v with
        | .error e => .err e b1
        | .ok t =>
          let b2 := { b1 with target := t }
          .ok () ({ b2 with bit_position := (b2.position + 1) <<< 3 }).«_update_length»
    else
      match (if b.capacity ≤ b.position + 2 then b.«_grow» 1 else .ok () b) with
      | .err e s => .err e s
      | .ok _ b1 =>
        match b1.«_write_misaligned» v with
        | .err e s => .err e s
        | .ok _ b2 => .ok () b2.«_update_length»

/-- Method `write_bit`: captures `p = position`, grows by one when the
cursor sits aligned exactly at the capacity boundary, then
`target[p] = (target[p] & ~(1 << r)) | (int(bit) << r)` with
`r = bit_position & 7` (the mask `~(1 << r)` acts on a byte below 256, so
it equals `& (255 ^ (1 << r))` there), advances the cursor by 1 and
updates the length high-water mark. -/
def Buffer.write_bit (b : Buffer) (bit : Bool) : BufResult Unit :=
  let p := b.position
  match (if b.bit_aligned ∧ b.position = b.capacity then b.«_grow» 1 else .ok () b) with
  | .err e s => .err e s
  | .ok _ b1 =>
    let r := b1.bit_position &&& 7
    match bytearray_set b1.target p ((b1.target.getD p 0 &&& (255 ^^^ (1 <<< r))) ||| ((if bit then 1 else 0) <<< r)) with
    | .error e => .err e b1
    | .ok t =>
      .ok () ({ b1 with target := t, bit_position := b1.bit_position + 1 }).«_update_length»

/-- Method `getvalue`: `bytes(self.target)` — a copy of the WHOLE backing
array, all `capacity` bytes, regardless of `length`. -/
def Buffer.getvalue (b : Buffer) : List Nat :=
  b.target

/-- The spec's cursor invariant: `0 ≤ bit_position ≤ capacity * 8` (the
lower bound is inherent to `Nat` here; Python can in addition go negative
through the same unvalidated setters). -/
abbrev cursor_in_range (b : Buffer) : Prop :=
  b.bit_position ≤ b.capacity * 8

/-! Shared helper lemmas about the private growth path. -/

/-- Successful `bytearray` item assignment preserves the array length. -/
theorem bytearray_set_ok_length {arr : List Nat} {i v : Nat} {out : List Nat}
    (h : bytearray_set arr i v = .ok out) : out.length = arr.length := by
  unfold bytearray_set at h
  split at h
  · exact absurd h (by simp)
  · split at h
    · exact absurd h (by simp)
    · cases h
      exact List.length_set arr i v

/-- On a non-resizable buffer `_set_capacity` raises `UnsupportedError`
before touching any field. -/
theorem set_capacity_not_resizable (b : Buffer) (h : b.resizable = false) (v : Nat) :
    b.«_set_capacity» v = .err .unsupported b := by
  unfold Buffer.«_set_capacity»
  rw [h]
  simp

/-- On a non-resizable buffer `_grow` raises `UnsupportedError` before
touching any field. -/
theorem grow_not_resizable (b : Buffer) (h : b.resizable = false) (d : Nat) :
    b.«_grow» d = .err .unsupported b := by
  unfold Buffer.«_grow»
  exact set_capacity_not_resizable b h _

/-- On a resizable buffer `_grow` succeeds; the new capacity follows the
source formula, is at least `delta` more than the old one, the cursor and
bit length are untouched, and the old bytes are copied in front of fresh
zero bytes. -/
theorem grow_resizable_spec (b : Buffer) (h : b.resizable = true) (d : Nat) :
    ∃ b2, b.«_grow» d = .ok () b2 ∧
      b2.capacity = (if 1 <<< 30 ≤ b.capacity then max (d + b.capacity) (1 <<< 31 - 1)
                     else max (max (d + b.capacity) 256) (b.capacity * 2)) ∧
      d + b.capacity ≤ b2.capacity ∧
      b2.bit_position = b.bit_position ∧
      b2.bit_length = b.bit_length ∧
      b2.resizable = true ∧
      b2.target = b.target ++ List.replicate (b2.capacity - b.capacity) 0 := by
  have hcap : b.capacity = b.target.length := rfl
  unfold Buffer.«_grow» Buffer.«_set_capacity»
  rw [h]
  set nc := (if 1 <<< 30 ≤ b.capacity then max (d + b.capacity) (1 <<< 31 - 1)
             else max (max (d + b.capacity) 256) (b.capacity * 2)) with hnc
  have hge : d + b.capacity ≤ nc := by
    rw [hnc]
    split
    · exact le_max_left _ _
    · exact le_trans (le_max_left _ _) (le_max_left _ _)
  have hge2 : b.capacity ≤ nc := le_trans (Nat.le_add_left _ _) hge
  have hcond : (b.capacity ≥ 1 <<< 30) = (1 <<< 30 ≤ b.capacity) := rfl
  simp only [hcond, ← hnc, Bool.false_eq_true, if_false, reduceCtorEq]
  have hmin : min nc b.capacity = b.capacity := Nat.min_eq_right hge2
  have hlt : ¬ (nc < b.capacity) := Nat.not_lt.2 hge2
  rw [hmin, if_neg hlt]
  have hlen : (b.target.take b.capacity ++ List.replicate (nc - b.capacity) 0).length = nc := by
    rw [List.length_append, List.length_take, List.length_replicate, hcap]
    omega
  refine ⟨_, rfl, ?_, ?_, rfl, rfl, h, ?_⟩
  · exact hlen
  · show d + b.capacity ≤ (b.target.take b.capacity ++ List.replicate (nc - b.capacity) 0).length
    rw [hlen]
    exact hge
  · show b.target.take b.capacity ++ List.replicate (nc - b.capacity) 0
        = b.target ++ List.replicate
            ((b.target.take b.capacity ++ List.replicate (nc - b.capacity) 0).length - b.capacity) 0
    rw [hlen, hcap, List.take_length]

/-- Arithmetic bridge: masking with 7 is mod 8. -/
theorem nat_and_seven (x : Nat) : x &&& 7 = x % 8 := by
  have h := Nat.and_pow_two_sub_one_eq_mod x 3
  norm_num at h
  exact h

/-- Arithmetic bridge: shifting left by 3 multiplies by 8. -/
theorem nat_shiftl_three (x : Nat) : x <<< 3 = x * 8 := by
  rw [Nat.shiftLeft_eq]

/-- Arithmetic bridge: shifting right by 3 divides by 8. -/
theorem nat_shiftr_three (x : Nat) : x >>> 3 = x / 8 := by
  rw [Nat.shiftRight_eq_div_pow]

/-- The length high-water update touches only `bit_length`. -/
theorem update_length_state (b : Buffer) :
    (b.«_update_length»).bit_position = b.bit_position ∧
    (b.«_update_length»).target = b.target ∧
    (b.«_update_length»).resizable = b.resizable := by
  unfold Buffer.«_update_length»
  split <;> exact ⟨rfl, rfl, rfl⟩

/-- Whatever path `_write_misaligned` takes (clean write, `IndexError`,
or the mid-write `ValueError`), the resulting state keeps the capacity,
the resizable flag and the bit length, and the cursor either stays or
advances by exactly 8 bits. -/
theorem write_misaligned_state (b : Buffer) (v : Nat) :
    (b.«_write_misaligned» v).state.capacity = b.capacity ∧
    (b.«_write_misaligned» v).state.resizable = b.resizable ∧
    (b.«_write_misaligned» v).state.bit_length = b.bit_length ∧
    ((b.«_write_misaligned» v).state.bit_position = b.bit_position ∨
      (b.«_write_misaligned» v).state.bit_position = b.bit_position + 8) := by
  unfold Buffer.«_write_misaligned»
  dsimp only
  split
  · exact ⟨rfl, rfl, rfl, Or.inl rfl⟩
  · rename_i t1 h1
    split
    · refine ⟨?_, rfl, rfl, Or.inl rfl⟩
      show t1.length = b.target.length
      exact bytearray_set_ok_length h1
    · rename_i t2 h2
      refine ⟨?_, rfl, rfl, Or.inr rfl⟩
      show t2.length = b.target.length
      rw [bytearray_set_ok_length h2, bytearray_set_ok_length h1]

/-! Claim theorems. -/

/-- Claim C1: writing N bytes with `write_byte` from a misaligned cursor
and reading them back with `read_byte` from the same cursor should yield
the original sequence.  The code refutes this: on a fresh resizable
buffer with the cursor at bit offset 1, writing the bytes 1, 1 and
reading back from bit offset 1 returns 257 for the first byte — the
misaligned read ors in the WHOLE next byte shifted left instead of only
its low `r` bits, so the round trip fails (`_write_misaligned` can even
raise `ValueError` for values with high bits, see C6). -/
theorem c1_misaligned_byte_roundtrip_fails :
    ((((Buffer.mk_new 16).set_bit_position 1).write_byte 1).bind
        (fun _ s => s.write_byte 1)).isOk = true ∧
    (((((Buffer.mk_new 16).set_bit_position 1).write_byte 1).bind
        (fun _ s => s.write_byte 1)).state.set_bit_position 1).read_byte.1 = 257 := by
  exact ⟨by decide, by decide⟩

/-- Claim C2: writing M bits then reading M bits from the same start
should reproduce them.  The code refutes this: `read_bit` increments
`bit_position` BEFORE selecting the bit, so it tests the bit one place
above the one `write_bit` set.  Writing a single `true` bit at offset 0
and reading back from offset 0 yields `false`. -/
theorem c2_bit_roundtrip_fails :
    ((Buffer.mk_new 16).write_bit true).isOk = true ∧
    (((Buffer.mk_new 16).write_bit true).state.target.getD 0 0 = 1) ∧
    ((((Buffer.mk_new 16).write_bit true).state.set_bit_position 0).read_bit).1 = some false := by
  exact ⟨by decide, by decide, by decide⟩

/-- Claim C3: `length` should equal `ceil(bit_length / 8)`.  The code
refutes this: after writing 9 bits (so `bit_length = 9`), the source's
`self._bit_length >> 3 + (1 if self._bit_length & 7 else 0)` parses as
`9 >> 4 = 0`, not the intended `(9 >> 3) + 1 = 2`. -/
theorem c3_length_drops_partial_byte :
    ((List.replicate 9 true).foldl
        (fun r bit => r.bind (fun _ s => s.write_bit bit))
        (BufResult.ok () (Buffer.mk_new 16))).state.bit_length = 9 ∧
    ((List.replicate 9 true).foldl
        (fun r bit => r.bind (fun _ s => s.write_bit bit))
        (BufResult.ok () (Buffer.mk_new 16))).state.length = 0 := by
  exact ⟨by decide, by decide⟩

/-- Claim C4: relative `seek` should set
`clamp(bit_position + offset * 8)`.  The code refutes this for the
relative mode: `self.bit_position + offset << 3` parses as
`(bit_position + offset) << 3`, so from bit position 3 a relative seek
by 1 byte lands on bit 32 instead of the claimed 3 + 8 = 11. -/
theorem c4_seek_cur_scales_the_sum :
    ((((Buffer.mk_new 16).set_bit_position 3).seek 1 1).state).bit_position = 32 ∧
    ((((Buffer.mk_new 16).set_bit_position 3).seek 1 1).state).bit_position ≠ 11 := by
  exact ⟨by decide, by decide⟩

/-- Claim C6: an operation that raises should leave the state untouched.
The code refutes this: at bit offset 1, `write_byte 200` computes
`200 << 1 = 400` for the current byte, which CPython's bytearray
assignment rejects with `ValueError` — but the assignment to the NEXT
byte has already happened, so the error state differs from the input
state (byte 1 changed from 0 to 1) while `bit_position` is unchanged. -/
theorem c6_partial_mutation_on_error :
    (((Buffer.mk_new 16).set_bit_position 1).write_byte 200).isOk = false ∧
    (((Buffer.mk_new 16).set_bit_position 1).write_byte 200).state.target.getD 1 0 = 1 ∧
    (((Buffer.mk_new 16).set_bit_position 1).write_byte 200).state ≠
      (Buffer.mk_new 16).set_bit_position 1 := by
  exact ⟨by decide, by decide, by decide⟩

/-- Claim C9 counterexample: `getvalue` does NOT return only the first
`length` bytes: on a fresh 16-byte buffer `length` is 0 but `getvalue`
returns 16 bytes. -/
theorem c9_getvalue_not_truncated_to_length :
    ¬ ((Buffer.mk_new 16).getvalue.length = (Buffer.mk_new 16).length) := by
  decide

/-- Claim C9 (amended): `getvalue` returns a snapshot of the WHOLE
backing storage — all `capacity` bytes, bytewise equal to it — and, being
a pure accessor, leaves the buffer unchanged. -/
theorem c9_getvalue_whole_storage (b : Buffer) :
    b.getvalue.length = b.capacity ∧
    (∀ i, i < b.capacity → b.getvalue.getD i 0 = b.target.getD i 0) := by
  exact ⟨rfl, fun i _ => rfl⟩

/-- Claim C9 witness: the amended statement at a fresh 16-byte buffer. -/
theorem c9_getvalue_whole_storage_witness :
    (Buffer.mk_new 16).getvalue.length = (Buffer.mk_new 16).capacity ∧
    (Buffer.mk_new 16).getvalue.getD 0 0 = (Buffer.mk_new 16).target.getD 0 0 := by
  exact ⟨(c9_getvalue_whole_storage (Buffer.mk_new 16)).1,
         (c9_getvalue_whole_storage (Buffer.mk_new 16)).2 0 (by decide)⟩

/-- Claim C10: with no unread data (`position ≥ length` for `read_byte`,
`bit_position ≥ bit_length` for `read_bit`), `read_byte` returns -1,
`read_bit` returns `none`, and the state is returned exactly as it was. -/
theorem c10_eof_reads_are_pure (b : Buffer) :
    (b.length ≤ b.position → b.read_byte = (-1, b)) ∧
    (b.bit_length ≤ b.bit_position → b.read_bit = (none, b)) := by
  constructor
  · intro h
    have hd : b.«_has_data_to_read» = false := by
      unfold Buffer.«_has_data_to_read»
      simpa using h
    unfold Buffer.read_byte
    rw [hd]
    simp
  · intro h
    unfold Buffer.read_bit
    rw [if_pos h]

/-- Claim C10 witness: both sentinels at a fresh 16-byte buffer. -/
theorem c10_eof_reads_are_pure_witness :
    (Buffer.mk_new 16).read_byte = (-1, Buffer.mk_new 16) ∧
    (Buffer.mk_new 16).read_bit = (none, Buffer.mk_new 16) := by
  exact ⟨(c10_eof_reads_are_pure (Buffer.mk_new 16)).1 (by decide),
         (c10_eof_reads_are_pure (Buffer.mk_new 16)).2 (by decide)⟩

/-- Claim C5 counterexample: the `position` setter performs no bounds
validation, so it drives `bit_position` to 8000 on a 16-byte buffer,
violating `bit_position ≤ capacity * 8 = 128`. -/
theorem c5_position_setter_breaks_invariant :
    ¬ (((Buffer.mk_new 16).set_position 1000).bit_position ≤
        ((Buffer.mk_new 16).set_position 1000).capacity * 8) := by
  decide

/-- Claim C8: on a resizable buffer, `_grow delta` succeeds and the new
capacity is `max(target, 2^31 - 1)` when the current capacity is at least
`2^30` (with `target = capacity + delta`), and
`max(target, 256, capacity * 2)` otherwise; every previously stored byte
(index below the old capacity, hence below the new one) is preserved, and
the cursor and bit length are untouched. -/
theorem c8_growth_policy (b : Buffer) (h : b.resizable = true) (d : Nat) :
    ∃ b2, b.«_grow» d = .ok () b2 ∧
      b2.capacity = (if 1 <<< 30 ≤ b.capacity then max (d + b.capacity) (1 <<< 31 - 1)
                     else max (max (d + b.capacity) 256) (b.capacity * 2)) ∧
      b.capacity ≤ b2.capacity ∧
      (∀ i, i < b.capacity → b2.target.getD i 0 = b.target.getD i 0) ∧
      b2.bit_position = b.bit_position ∧
      b2.bit_length = b.bit_length := by
  obtain ⟨b2, h1, h2, h3, h4, h5, h6, h7⟩ := grow_resizable_spec b h d
  refine ⟨b2, h1, h2, le_trans (Nat.le_add_left _ _) h3, ?_, h4, h5⟩
  intro i hi
  rw [h7]
  exact List.getD_append _ _ _ _ hi

/-- Claim C8 witness: growing a fresh 16-byte buffer by 1 gives capacity
`max(17, 256, 32) = 256` and keeps byte 0. -/
theorem c8_growth_policy_witness :
    ∃ b2, (Buffer.mk_new 16).«_grow» 1 = .ok () b2 ∧
      b2.capacity = 256 ∧
      b2.target.getD 0 0 = (Buffer.mk_new 16).target.getD 0 0 := by
  obtain ⟨b2, h1, h2, h3, h4, h5, h6⟩ := c8_growth_policy (Buffer.mk_new 16) rfl 1
  refine ⟨b2, h1, ?_, h4 0 (by decide)⟩
  rw [h2]
  decide

/-- Helper: the length high-water update does not move the cursor or the
capacity, so it preserves the cursor invariant in both directions. -/
theorem update_length_cursor (b : Buffer) :
    cursor_in_range (b.«_update_length») ↔ cursor_in_range b := by
  unfold Buffer.«_update_length»
  split <;> exact Iff.rfl

/-- Helper: the length high-water update does not change the capacity. -/
theorem update_length_capacity (b : Buffer) :
    (b.«_update_length»).capacity = b.capacity := by
  unfold Buffer.«_update_length»
  split <;> rfl

/-- Helper: `write_bit` preserves the cursor invariant. -/
theorem write_bit_cursor (b : Buffer) (bit : Bool) (hb : cursor_in_range b) :
    cursor_in_range ((b.write_bit bit).state) := by
  unfold Buffer.write_bit
  dsimp only
  by_cases hc : b.bit_aligned = true ∧ b.position = b.capacity
  · rw [if_pos hc]
    cases hres : b.resizable with
    | false =>
        rw [grow_not_resizable b hres 1]
        exact hb
    | true =>
        obtain ⟨b2, hg, hcap2, hge, hbp2, hbl2, hrs2, htg2⟩ := grow_resizable_spec b hres 1
        rw [hg]
        dsimp only
        split
        · rename_i e heq
          show b2.bit_position ≤ b2.capacity * 8
          simp only [cursor_in_range, Buffer.capacity] at hb
          simp only [Buffer.capacity] at hge ⊢
          omega
        · rename_i t h1
          dsimp only [BufResult.state]
          rw [update_length_cursor]
          have ht : t.length = b2.capacity := bytearray_set_ok_length h1
          show b2.bit_position + 1 ≤ t.length * 8
          simp only [cursor_in_range, Buffer.capacity] at hb
          simp only [Buffer.capacity] at hge ht
          omega
  · rw [if_neg hc]
    dsimp only
    split
    · exact hb
    · rename_i t h1
      dsimp only [BufResult.state]
      rw [update_length_cursor]
      have ht : t.length = b.capacity := bytearray_set_ok_length h1
      have hlt : b.bit_position < b.capacity * 8 := by
        rcases Nat.lt_or_ge b.bit_position (b.capacity * 8) with h | h
        · exact h
        · exfalso
          have heq : b.bit_position = b.capacity * 8 := le_antisymm hb h
          apply hc
          constructor
          · simp [Buffer.bit_aligned, nat_and_seven, heq, Nat.mul_mod_left]
          · simp only [Buffer.position, nat_shiftr_three, heq]
            omega
      show b.bit_position + 1 ≤ t.length * 8
      rw [ht]
      omega

/-- Helper: `write_byte` preserves the cursor invariant. -/
theorem write_byte_cursor (b : Buffer) (v : Int) (hb : cursor_in_range b) :
    cursor_in_range ((b.write_byte v).state) := by
  unfold Buffer.write_byte
  dsimp only
  split
  · exact hb
  · rename_i hval
    split
    · -- aligned path
      by_cases hg : b.capacity ≤ b.position + 1
      · rw [if_pos hg]
        cases hres : b.resizable with
        | false =>
            rw [grow_not_resizable b hres 1]
            exact hb
        | true =>
            obtain ⟨b2, hgr, hcap2, hge, hbp2, hbl2, hrs2, htg2⟩ := grow_resizable_spec b hres 1
            rw [hgr]
            dsimp only
            split
            · rename_i e heq
              show b2.bit_position ≤ b2.capacity * 8
              simp only [cursor_in_range, Buffer.capacity] at hb
              simp only [Buffer.capacity] at hge ⊢
              omega
            · rename_i t h1
              dsimp only [BufResult.state]
              rw [update_length_cursor]
              have ht : t.length = b2.capacity := bytearray_set_ok_length h1
              show (b2.position + 1) <<< 3 ≤ t.length * 8
              simp only [cursor_in_range, Buffer.capacity] at hb
              simp only [Buffer.position, nat_shiftr_three, nat_shiftl_three] at *
              simp only [Buffer.capacity] at hge ht
              omega
      · rw [if_neg hg]
        dsimp only
        split
        · exact hb
        · rename_i t h1
          dsimp only [BufResult.state]
          rw [update_length_cursor]
          have ht : t.length = b.capacity := bytearray_set_ok_length h1
          show (b.position + 1) <<< 3 ≤ t.length * 8
          rw [ht, nat_shiftl_three]
          simp only [Buffer.position, nat_shiftr_three] at hg ⊢
          omega
    · -- misaligned path
      by_cases hg : b.capacity ≤ b.position + 2
      · rw [if_pos hg]
        cases hres : b.resizable with
        | false =>
            rw [grow_not_resizable b hres 1]
            exact hb
        | true =>
            obtain ⟨b2, hgr, hcap2, hge, hbp2, hbl2, hrs2, htg2⟩ := grow_resizable_spec b hres 1
            rw [hgr]
            dsimp only
            have hB : b2.bit_position + 8 ≤ b2.capacity * 8 := by
              simp only [cursor_in_range, Buffer.capacity] at hb
              simp only [Buffer.capacity] at hge ⊢
              omega
            split
            · rename_i e s heq
              have hw := write_misaligned_state b2 v.toNat
              rw [heq] at hw
              dsimp only [BufResult.state] at hw
              obtain ⟨hw1, hw2, hw3, hw4⟩ := hw
              show s.bit_position ≤ s.capacity * 8
              rcases hw4 with h4 | h4 <;> rw [h4, hw1] <;> omega
            · rename_i u s heq
              have hw := write_misaligned_state b2 v.toNat
              rw [heq] at hw
              dsimp only [BufResult.state] at hw
              obtain ⟨hw1, hw2, hw3, hw4⟩ := hw
              dsimp only [BufResult.state]
              rw [update_length_cursor]
              show s.bit_position ≤ s.capacity * 8
              rcases hw4 with h4 | h4 <;> rw [h4, hw1] <;> omega
      · rw [if_neg hg]
        dsimp only
        have hB : b.bit_position + 8 ≤ b.capacity * 8 := by
          simp only [Buffer.position, nat_shiftr_three] at hg
          omega
        split
        · rename_i e s heq
          have hw := write_misaligned_state b v.toNat
          rw [heq] at hw
          dsimp only [BufResult.state] at hw
          obtain ⟨hw1, hw2, hw3, hw4⟩ := hw
          show s.bit_position ≤ s.capacity * 8
          rcases hw4 with h4 | h4 <;> rw [h4, hw1] <;> omega
        · rename_i u s heq
          have hw := write_misaligned_state b v.toNat
          rw [heq] at hw
          dsimp only [BufResult.state] at hw
          obtain ⟨hw1, hw2, hw3, hw4⟩ := hw
          dsimp only [BufResult.state]
          rw [update_length_cursor]
          show s.bit_position ≤ s.capacity * 8
          rcases hw4 with h4 | h4 <;> rw [h4, hw1] <;> omega

/-- Claim C5 (amended): the invariant `bit_position ≤ capacity * 8` is
established by both constructors and preserved by `seek`, `read_bit`,
`write_bit` and `write_byte` (for `read_bit` given the companion
invariant `bit_length ≤ capacity * 8`); it is NOT preserved by the
`position` / `bit_position` setters, which store any value without
validation (see the counterexample), and the misaligned `read_byte` path
can overrun the bound by up to 7 bits at the very end of a full buffer. -/
theorem c5_invariant_amended :
    (∀ n, cursor_in_range (Buffer.mk_new n)) ∧
    (∀ t b, Buffer.wrap t = .ok b → cursor_in_range b) ∧
    (∀ b (off : Int) (wh : Nat), cursor_in_range b →
        cursor_in_range ((b.seek off wh).state)) ∧
    (∀ b, cursor_in_range b → b.bit_length ≤ b.capacity * 8 →
        cursor_in_range (b.read_bit).2) ∧
    (∀ b bit, cursor_in_range b → cursor_in_range ((b.write_bit bit).state)) ∧
    (∀ b (v : Int), cursor_in_range b → cursor_in_range ((b.write_byte v).state)) := by
  refine ⟨?_, ?_, ?_, ?_, ?_, ?_⟩
  · intro n
    exact Nat.zero_le _
  · intro t b h
    unfold Buffer.wrap at h
    split at h
    · cases h
    · cases h
      exact Nat.zero_le _
  · intro b off wh hb
    unfold Buffer.seek
    dsimp only
    split
    · simp only [cursor_in_range, BufResult.state, Buffer.capacity, nat_shiftl_three]
      omega
    · split
      · simp only [cursor_in_range, BufResult.state, Buffer.capacity, nat_shiftl_three]
        omega
      · split
        · simp only [cursor_in_range, BufResult.state, Buffer.capacity, nat_shiftl_three]
          omega
        · exact hb
  · intro b hb hl
    unfold Buffer.read_bit
    dsimp only
    split
    · exact hb
    · rename_i h
      simp only [cursor_in_range, Buffer.capacity] at *
      omega
  · exact write_bit_cursor
  · exact write_byte_cursor

/-- Claim C5 witness: the amended parts instantiated on concrete
buffers — a fresh buffer, a clamped far seek, and bit/byte writes from
bit offset 5. -/
theorem c5_invariant_amended_witness :
    cursor_in_range (Buffer.mk_new 16) ∧
    cursor_in_range (((Buffer.mk_new 16).seek 99 0).state) ∧
    cursor_in_range (((Buffer.mk_new 16).set_bit_position 5).read_bit).2 ∧
    cursor_in_range ((((Buffer.mk_new 16).set_bit_position 5).write_bit true).state) ∧
    cursor_in_range ((((Buffer.mk_new 16).set_bit_position 5).write_byte 7).state) := by
  refine ⟨c5_invariant_amended.1 16,
          c5_invariant_amended.2.2.1 (Buffer.mk_new 16) 99 0 (by decide),
          c5_invariant_amended.2.2.2.1 ((Buffer.mk_new 16).set_bit_position 5) (by decide) (by decide),
          c5_invariant_amended.2.2.2.2.1 ((Buffer.mk_new 16).set_bit_position 5) true (by decide),
          c5_invariant_amended.2.2.2.2.2 ((Buffer.mk_new 16).set_bit_position 5) 7 (by decide)⟩

/-- Claim C7: wrapping a zero-length sequence fails with `ValueError`
(`InvalidArgument`); a wrapped buffer is non-resizable with capacity the
wrapped length; on any non-resizable buffer every growth path —
`_grow`, a capacity set above the current length, a length set above the
capacity, a byte write at/over the capacity boundary (aligned or
misaligned), a bit write at the aligned capacity boundary — fails with
`UnsupportedError` leaving the state exactly as it was; and every
embedded operation leaves the capacity of a non-resizable buffer
unchanged, so it stays at the wrapped length for the buffer's lifetime. -/
theorem c7_fixed_buffer_rejects_growth :
    (Buffer.wrap [] = .error .valueError) ∧
    (∀ (t : List Nat) (b : Buffer), Buffer.wrap t = .ok b →
        b.resizable = false ∧ b.capacity = t.length) ∧
    (∀ (b : Buffer) (d : Nat), b.resizable = false →
        b.«_grow» d = .err .unsupported b) ∧
    (∀ (b : Buffer) (v : Nat), b.resizable = false → b.length ≤ v →
        b.set_capacity v = .err .unsupported b) ∧
    (∀ (b : Buffer) (v : Int), b.resizable = false → 0 ≤ v → b.capacity < v.toNat →
        b.set_length v = .err .unsupported b) ∧
    (∀ (b : Buffer) (v : Int), b.resizable = false → ¬(v < 0 ∨ 255 < v) →
        b.bit_aligned = true → b.capacity ≤ b.position + 1 →
        b.write_byte v = .err .unsupported b) ∧
    (∀ (b : Buffer) (v : Int), b.resizable = false → ¬(v < 0 ∨ 255 < v) →
        b.bit_aligned = false → b.capacity ≤ b.position + 2 →
        b.write_byte v = .err .unsupported b) ∧
    (∀ (b : Buffer) (bit : Bool), b.resizable = false → b.bit_aligned = true →
        b.position = b.capacity →
        b.write_bit bit = .err .unsupported b) ∧
    (∀ b : Buffer, b.resizable = false →
        (∀ d, (b.«_grow» d).state.capacity = b.capacity) ∧
        (∀ v, (b.set_capacity v).state.capacity = b.capacity) ∧
        (∀ v : Int, (b.set_length v).state.capacity = b.capacity) ∧
        (∀ (off : Int) (wh : Nat), (b.seek off wh).state.capacity = b.capacity) ∧
        ((b.read_byte).2.capacity = b.capacity) ∧
        ((b.read_bit).2.capacity = b.capacity) ∧
        (∀ v : Int, (b.write_byte v).state.capacity = b.capacity) ∧
        (∀ bit, (b.write_bit bit).state.capacity = b.capacity) ∧
        (∀ v, (b.set_position v).capacity = b.capacity) ∧
        (∀ v, (b.set_bit_position v).capacity = b.capacity)) := by
  refine ⟨rfl, ?_, fun b d hf => grow_not_resizable b hf d, ?_, ?_, ?_, ?_, ?_, ?_⟩
  · intro t b h
    unfold Buffer.wrap at h
    split at h
    · cases h
    · cases h
      exact ⟨rfl, rfl⟩
  · intro b v hf hv
    unfold Buffer.set_capacity
    rw [if_neg (Nat.not_lt.2 hv)]
    exact set_capacity_not_resizable b hf v
  · intro b v hf h0 hlt
    unfold Buffer.set_length
    rw [if_neg (by omega : ¬ v < 0)]
    dsimp only
    rw [if_pos hlt, grow_not_resizable b hf _]
  · intro b v hf hval ha hcap
    unfold Buffer.write_byte
    rw [if_neg hval]
    dsimp only
    rw [if_pos ha, if_pos hcap, grow_not_resizable b hf 1]
  · intro b v hf hval ha hcap
    unfold Buffer.write_byte
    rw [if_neg hval]
    dsimp only
    rw [if_neg (by simp [ha] : ¬ b.bit_aligned = true), if_pos hcap,
        grow_not_resizable b hf 1]
  · intro b bit hf ha hpos
    unfold Buffer.write_bit
    dsimp only
    rw [if_pos ⟨ha, hpos⟩, grow_not_resizable b hf 1]
  · intro b hf
    refine ⟨?_, ?_, ?_, ?_, ?_, ?_, ?_, ?_, fun v => rfl, fun v => rfl⟩
    · intro d
      rw [grow_not_resizable b hf d]
      rfl
    · intro v
      unfold Buffer.set_capacity
      split
      · rfl
      · rw [set_capacity_not_resizable b hf v]
        rfl
    · intro v
      unfold Buffer.set_length
      dsimp only
      split
      · rfl
      · by_cases hlt : b.capacity < v.toNat
        · rw [if_pos hlt, grow_not_resizable b hf _]
          rfl
        · rw [if_neg hlt]
          rfl
    · intro off wh
      unfold Buffer.seek
      dsimp only
      split
      · rfl
      · split
        · rfl
        · split
          · rfl
          · rfl
    · unfold Buffer.read_byte Buffer.«_read_byte» Buffer.«_read_byte_aligned»
          Buffer.«_read_byte_misaligned»
      dsimp only
      split
      · split <;> rfl
      · rfl
    · unfold Buffer.read_bit
      dsimp only
      split <;> rfl
    · intro v
      unfold Buffer.write_byte
      dsimp only
      split
      · rfl
      · split
        · -- aligned
          by_cases hg : b.capacity ≤ b.position + 1
          · rw [if_pos hg, grow_not_resizable b hf 1]
            rfl
          · rw [if_neg hg]
            dsimp only
            split
            · rfl
            · rename_i t h1
              dsimp only [BufResult.state]
              rw [update_length_capacity]
              exact bytearray_set_ok_length h1
        · -- misaligned
          by_cases hg : b.capacity ≤ b.position + 2
          · rw [if_pos hg, grow_not_resizable b hf 1]
            rfl
          · rw [if_neg hg]
            dsimp only
            split
            · rename_i e s heq
              have hw := (write_misaligned_state b v.toNat).1
              rw [heq] at hw
              exact hw
            · rename_i u s heq
              have hw := (write_misaligned_state b v.toNat).1
              rw [heq] at hw
              dsimp only [BufResult.state] at hw ⊢
              rw [update_length_capacity]
              exact hw
    · intro bit
      unfold Buffer.write_bit
      dsimp only
      by_cases hc : b.bit_aligned = true ∧ b.position = b.capacity
      · rw [if_pos hc, grow_not_resizable b hf 1]
        rfl
      · rw [if_neg hc]
        dsimp only
        split
        · rfl
        · rename_i t h1
          dsimp only [BufResult.state]
          rw [update_length_capacity]
          exact bytearray_set_ok_length h1

/-- Claim C7 witness: a non-resizable one-byte wrapped buffer: `_grow`,
an aligned `write_byte` at the boundary, and a `set_length` past the
capacity all fail with `UnsupportedError` unchanged, and the capacity
stays 1. -/
theorem c7_fixed_buffer_rejects_growth_witness :
    (Buffer.wrap [] = .error .valueError) ∧
    ((⟨[9], false, 0, 8⟩ : Buffer).«_grow» 1 = .err .unsupported ⟨[9], false, 0, 8⟩) ∧
    ((⟨[9], false, 0, 8⟩ : Buffer).write_byte 5 = .err .unsupported ⟨[9], false, 0, 8⟩) ∧
    ((⟨[9], false, 0, 8⟩ : Buffer).set_length 2 = .err .unsupported ⟨[9], false, 0, 8⟩) ∧
    (((⟨[9], false, 0, 8⟩ : Buffer).write_byte 5).state.capacity =
      (⟨[9], false, 0, 8⟩ : Buffer).capacity) := by
  obtain ⟨h1, h2, h3, h4, h5, h6, h7, h8, h9⟩ := c7_fixed_buffer_rejects_growth
  exact ⟨h1,
         h3 _ 1 rfl,
         h6 _ 5 rfl (by decide) (by decide) (by decide),
         h5 _ 2 rfl (by decide) (by decide),
         ((h9 _ rfl).2.2.2.2.2.2.1 5)⟩

end PyBinary
